import Mathlib

/-
Verification of the 6502 assembler core: a shallow embedding of the
data model (addressing modes, operands, instructions, lines), the opcode
table, the byte encoder (`Instruction::to_bytes`), the sizing rule
(`Instruction::size`), the two-pass label resolver
(`proccess_instructions`), the ROM image builder (`add_padding`), the
line parser and the mnemonic validator, together with theorems about
the specified behaviour.

Machine integers are modelled as `Nat` (`u32` addresses stay below
`2 ^ 32` because the hex parser rejects larger literals, and every
range check in the encoder is explicit in the source); fallible
operations return `Except`.
-/

set_option maxHeartbeats 1000000

namespace NesAsm

/-- The thirteen addressing modes of `nes_lib::instructions::AddressMode`. -/
inductive AddressMode where
  | Accumulator
  | Absolute
  | AbsoluteX
  | AbsoluteY
  | Immediate
  | Implied
  | Indirect
  | IndirectX
  | IndirectY
  | Relative
  | ZeroPage
  | ZeroPageX
  | ZeroPageY
deriving DecidableEq, Repr

/-- The `Display` rendering of an `AddressMode` in `nes_lib`. -/
def AddressMode.display : AddressMode → String
  | .Accumulator => "Accumulator"
  | .Absolute => "Absolute"
  | .AbsoluteX => "AbsoluteX"
  | .AbsoluteY => "AbsoluteY"
  | .Immediate => "Immediate"
  | .Implied => "Implied"
  | .Indirect => "Indirect"
  | .IndirectX => "IndirectX"
  | .IndirectY => "IndirectY"
  | .Relative => "Relative"
  | .ZeroPage => "ZeroPage"
  | .ZeroPageX => "ZeroPageX"
  | .ZeroPageY => "ZeroPageY"

/-- Type `instruction::Address`: a numeric value paired with its addressing mode. -/
structure Address where
  address : Nat
  address_mode : AddressMode
deriving DecidableEq, Repr

/-- The `Display` rendering of an `Address` in `instruction.rs`. -/
def Address.display (a : Address) : String :=
  "Address Mode - " ++ a.address_mode.display ++ ", Address: " ++ toString a.address

/-- Type `instruction::Operand`: a concrete address or an unresolved label. -/
inductive Operand where
  | address (a : Address)
  | label (name : String)
deriving DecidableEq, Repr

/-- Type `instruction::Instruction`: a mnemonic plus an optional operand. -/
structure Instruction where
  opcode : String
  operand : Option Operand
deriving DecidableEq, Repr

/-- Type `error::AssemblerError`, with each payload as in the source. -/
inductive AssemblerError where
  | ParseErrorNom (msg : String)
  | ParseError (msg : String) (line : Nat)
  | ParseIntError (msg : String)
  | IOError (msg : String)
  | InvalidOperand (msg : String)
  | IncompleteInput
  | InvalidOpCode (msg : String) (line : Nat)
  | OpCodeConversionError (opcode : String)
  | OperandOutOfRange (msg : String)
  | InvalidDirective (name : String)
  | InvalidLabel (msg : String) (line : Nat)
  | ProgramTooLarge
deriving DecidableEq, Repr

/-- The static `OPCODE_LOOKUP` table of `instruction.rs`: a map from
(mnemonic, addressing mode) to the opcode byte. -/
def OPCODE_LOOKUP (m : String) (mode : AddressMode) : Option Nat :=
  match m, mode with
  | "ADC", .Immediate => some 0x69
  | "ADC", .ZeroPage => some 0x65
  | "ADC", .ZeroPageX => some 0x75
  | "ADC", .Absolute => some 0x6D
  | "ADC", .AbsoluteX => some 0x7D
  | "ADC", .AbsoluteY => some 0x79
  | "ADC", .IndirectX => some 0x61
  | "ADC", .IndirectY => some 0x71
  | "AND", .Immediate => some 0x29
  | "AND", .ZeroPage => some 0x25
  | "AND", .ZeroPageX => some 0x35
  | "AND", .Absolute => some 0x2D
  | "AND", .AbsoluteX => some 0x3D
  | "AND", .AbsoluteY => some 0x39
  | "AND", .IndirectX => some 0x21
  | "AND", .IndirectY => some 0x31
  | "ASL", .Accumulator => some 0x0A
  | "ASL", .ZeroPage => some 0x06
  | "ASL", .ZeroPageX => some 0x16
  | "ASL", .Absolute => some 0x0E
  | "ASL", .AbsoluteX => some 0x1E
  | "BIT", .ZeroPage => some 0x24
  | "BIT", .Absolute => some 0x2C
  | "BRK", .Implied => some 0x00
  | "CMP", .Immediate => some 0xC9
  | "CMP", .ZeroPage => some 0xC5
  | "CMP", .ZeroPageX => some 0xD5
  | "CMP", .Absolute => some 0xCD
  | "CMP", .AbsoluteX => some 0xDD
  | "CMP", .AbsoluteY => some 0xD9
  | "CMP", .IndirectX => some 0xC1
  | "CMP", .IndirectY => some 0xD1
  | "CPX", .Immediate => some 0xE0
  | "CPX", .ZeroPage => some 0xE4
  | "CPX", .Absolute => some 0xEC
  | "CPY", .Immediate => some 0xC0
  | "CPY", .ZeroPage => some 0xC4
  | "CPY", .Absolute => some 0xCC
  | "DEC", .ZeroPage => some 0xC6
  | "DEC", .ZeroPageX => some 0xD6
  | "DEC", .Absolute => some 0xCE
  | "DEC", .AbsoluteX => some 0xDE
  | "EOR", .Immediate => some 0x49
  | "EOR", .ZeroPage => some 0x45
  | "EOR", .ZeroPageX => some 0x55
  | "EOR", .Absolute => some 0x4D
  | "EOR", .AbsoluteX => some 0x5D
  | "EOR", .AbsoluteY => some 0x59
  | "EOR", .IndirectX => some 0x41
  | "EOR", .IndirectY => some 0x51
  | "INC", .ZeroPage => some 0xE6
  | "INC", .ZeroPageX => some 0xF6
  | "INC", .Absolute => some 0xEE
  | "INC", .AbsoluteX => some 0xFE
  | "JMP", .Absolute => some 0x4C
  | "JMP", .Indirect => some 0x6C
  | "JSR", .Absolute => some 0x20
  | "LDA", .Immediate => some 0xA9
  | "LDA", .ZeroPage => some 0xA5
  | "LDA", .ZeroPageX => some 0xB5
  | "LDA", .Absolute => some 0xAD
  | "LDA", .AbsoluteX => some 0xBD
  | "LDA", .AbsoluteY => some 0xB9
  | "LDA", .IndirectX => some 0xA1
  | "LDA", .IndirectY => some 0xB1
  | "LDX", .Immediate => some 0xA2
  | "LDX", .ZeroPage => some 0xA6
  | "LDX", .ZeroPageY => some 0xB6
  | "LDX", .Absolute => some 0xAE
  | "LDX", .AbsoluteY => some 0xBE
  | "LDY", .Immediate => some 0xA0
  | "LDY", .ZeroPage => some 0xA4
  | "LDY", .ZeroPageX => some 0xB4
  | "LDY", .Absolute => some 0xAC
  | "LDY", .AbsoluteX => some 0xBC
  | "LSR", .Accumulator => some 0x4A
  | "LSR", .ZeroPage => some 0x46
  | "LSR", .ZeroPageX => some 0x56
  | "LSR", .Absolute => some 0x4E
  | "LSR", .AbsoluteX => some 0x5E
  | "NOP", .Implied => some 0xEA
  | "ORA", .Immediate => some 0x09
  | "ORA", .ZeroPage => some 0x05
  | "ORA", .ZeroPageX => some 0x15
  | "ORA", .Absolute => some 0x0D
  | "ORA", .AbsoluteX => some 0x1D
  | "ORA", .AbsoluteY => some 0x19
  | "ORA", .IndirectX => some 0x01
  | "ORA", .IndirectY => some 0x11
  | "ROL", .Accumulator => some 0x2A
  | "ROL", .ZeroPage => some 0x26
  | "ROL", .ZeroPageX => some 0x36
  | "ROL", .Absolute => some 0x2E
  | "ROL", .AbsoluteX => some 0x3E
  | "ROR", .Accumulator => some 0x6A
  | "ROR", .ZeroPage => some 0x66
  | "ROR", .ZeroPageX => some 0x76
  | "ROR", .Absolute => some 0x6E
  | "ROR", .AbsoluteX => some 0x7E
  | "RTI", .Implied => some 0x40
  | "RTS", .Implied => some 0x60
  | "SBC", .Immediate => some 0xE9
  | "SBC", .ZeroPage => some 0xE5
  | "SBC", .ZeroPageX => some 0xF5
  | "SBC", .Absolute => some 0xED
  | "SBC", .AbsoluteX => some 0xFD
  | "SBC", .AbsoluteY => some 0xF9
  | "SBC", .IndirectX => some 0xE1
  | "SBC", .IndirectY => some 0xF1
  | "STA", .ZeroPage => some 0x85
  | "STA", .ZeroPageX => some 0x95
  | "STA", .Absolute => some 0x8D
  | "STA", .AbsoluteX => some 0x9D
  | "STA", .AbsoluteY => some 0x99
  | "STA", .IndirectX => some 0x81
  | "STA", .IndirectY => some 0x91
  | "STX", .ZeroPage => some 0x86
  | "STX", .ZeroPageY => some 0x96
  | "STX", .Absolute => some 0x8E
  | "STY", .ZeroPage => some 0x84
  | "STY", .ZeroPageX => some 0x94
  | "STY", .Absolute => some 0x8C
  | "BPL", .Relative => some 0x10
  | "BMI", .Relative => some 0x30
  | "BVC", .Relative => some 0x50
  | "BVS", .Relative => some 0x70
  | "BCC", .Relative => some 0x90
  | "BCS", .Relative => some 0xB0
  | "BNE", .Relative => some 0xD0
  | "BEQ", .Relative => some 0xF0
  | "CLC", .Implied => some 0x18
  | "SEC", .Implied => some 0x38
  | "CLI", .Implied => some 0x58
  | "SEI", .Implied => some 0x78
  | "CLV", .Implied => some 0xB8
  | "CLD", .Implied => some 0xD8
  | "SED", .Implied => some 0xF8
  | "TXS", .Implied => some 0x9A
  | "TSX", .Implied => some 0xBA
  | "PHA", .Implied => some 0x48
  | "PLA", .Implied => some 0x68
  | "PHP", .Implied => some 0x08
  | "PLP", .Implied => some 0x28
  | "TAX", .Implied => some 0xAA
  | "TXA", .Implied => some 0x8A
  | "DEX", .Implied => some 0xCA
  | "INX", .Implied => some 0xE8
  | "TAY", .Implied => some 0xA8
  | "TYA", .Implied => some 0x98
  | "DEY", .Implied => some 0x88
  | "INY", .Implied => some 0xC8
  | _, _ => none

/-- The effective addressing mode computed at the top of
`Instruction::to_bytes`: the own mode of an `Address` operand,
`Implied` for a label or missing operand, and forced to `Absolute` for a
`JSR` mnemonic. -/
def Instruction.effective_mode (i : Instruction) : AddressMode :=
  let m0 : AddressMode :=
    match i.operand with
    | some (Operand.address a) => a.address_mode
    | some (Operand.label _) => AddressMode.Implied
    | none => AddressMode.Implied
  if i.opcode = "JSR" then AddressMode.Absolute else m0

/-- Function `Instruction::to_bytes`: opcode byte from the table, then operand bytes
by effective mode with the exact range checks of the source (16-bit
little-endian for the absolute modes, one byte for the 8-bit modes,
nothing otherwise; a label operand emits no operand bytes). -/
def Instruction.to_bytes (i : Instruction) : Except AssemblerError (List Nat) :=
  match OPCODE_LOOKUP i.opcode i.effective_mode with
  | none => Except.error (AssemblerError.OpCodeConversionError i.opcode)
  | some b =>
    match i.operand with
    | some (Operand.address a) =>
      match i.effective_mode with
      | AddressMode.Absolute | AddressMode.AbsoluteX | AddressMode.AbsoluteY =>
        if 0xFFFF < a.address then
          Except.error (AssemblerError.OperandOutOfRange a.display)
        else
          Except.ok [b, a.address % 256, a.address / 256 % 256]
      | AddressMode.ZeroPage | AddressMode.ZeroPageX | AddressMode.ZeroPageY
      | AddressMode.Indirect | AddressMode.IndirectY | AddressMode.Immediate =>
        if 0xFF < a.address then
          Except.error (AssemblerError.OperandOutOfRange a.display)
        else
          Except.ok [b, a.address % 256]
      | _ => Except.ok [b]
    | _ => Except.ok [b]

/-- Function `Instruction::size`: 3 bytes for the absolute modes, 2 for the 8-bit
modes, 1 otherwise; a label operand is sized as `Absolute`. -/
def Instruction.size (i : Instruction) : Nat :=
  let am : AddressMode :=
    match i.operand with
    | some (Operand.address a) => a.address_mode
    | some (Operand.label _) => AddressMode.Absolute
    | none => AddressMode.Implied
  match am with
  | AddressMode.Absolute | AddressMode.AbsoluteX | AddressMode.AbsoluteY => 3
  | AddressMode.ZeroPage | AddressMode.ZeroPageX | AddressMode.ZeroPageY
  | AddressMode.Indirect | AddressMode.IndirectY | AddressMode.Immediate => 2
  | _ => 1

/-- Function `main::add_padding`: reject programs larger than 0xFFC bytes, else pad
with zeros to 0xFFC bytes, append the origin as low byte then high byte,
then four zero bytes. -/
def add_padding (bytes : List Nat) (start_pos : Nat) :
    Except AssemblerError (List Nat) :=
  if 0xFFC < bytes.length then
    Except.error AssemblerError.ProgramTooLarge
  else
    Except.ok ((bytes ++ List.replicate (0xFFC - bytes.length) 0) ++
      (start_pos % 256 :: start_pos / 256 % 256 :: List.replicate 4 0))

/-- Encoding a JSR with any address operand with `to_bytes`: the mode is forced to
Absolute, the opcode byte is 0x20, and only the 16-bit range check runs. -/
theorem to_bytes_JSR_address (w : Nat) (m : AddressMode) :
    Instruction.to_bytes ⟨"JSR", some (Operand.address ⟨w, m⟩)⟩ =
      (if 0xFFFF < w then
        Except.error (AssemblerError.OperandOutOfRange (Address.display ⟨w, m⟩))
      else Except.ok [0x20, w % 256, w / 256 % 256]) := rfl

/-- C1 counterexample: for a JSR instruction whose parsed operand carries
ZeroPage mode, `to_bytes` succeeds with 3 bytes (mode forced to Absolute)
while `size` uses the own mode of the operand and returns 2, so
`size(instr) = len(to_bytes(instr))` fails. -/
theorem C1_counterexample :
    Instruction.to_bytes ⟨"JSR", some (Operand.address ⟨0x44, AddressMode.ZeroPage⟩)⟩
      = Except.ok [0x20, 0x44, 0x00]
    ∧ Instruction.size ⟨"JSR", some (Operand.address ⟨0x44, AddressMode.ZeroPage⟩)⟩ = 2
    ∧ ([0x20, 0x44, 0x00] : List Nat).length ≠ 2 := by
  refine ⟨rfl, rfl, by decide⟩

/-- C1 (amended): the encoded byte length of a successful `to_bytes` equals
`size` for every instruction whose operand is absent or is an `Address`,
except a JSR whose address operand carries a mode other than
Absolute/AbsoluteX/AbsoluteY; label operands are excluded (they are sized
as Absolute but emit no operand bytes). -/
theorem C1_size_matches_to_bytes (i : Instruction) (bs : List Nat)
    (hop : match i.operand with
      | some (Operand.label _) => False
      | some (Operand.address a) =>
          i.opcode = "JSR" →
            a.address_mode = AddressMode.Absolute ∨
            a.address_mode = AddressMode.AbsoluteX ∨
            a.address_mode = AddressMode.AbsoluteY
      | none => True)
    (h : i.to_bytes = Except.ok bs) :
    bs.length = i.size := by
  obtain ⟨op, operand⟩ := i
  cases operand with
  | none =>
    by_cases hj : op = "JSR"
    · subst hj
      rw [show Instruction.to_bytes ⟨"JSR", none⟩ = Except.ok [0x20] from rfl] at h
      injection h with h
      subst h
      rfl
    · simp only [Instruction.to_bytes, Instruction.effective_mode, if_neg hj] at h
      cases hl : OPCODE_LOOKUP op AddressMode.Implied with
      | none => rw [hl] at h; exact absurd h (by simp)
      | some b =>
        rw [hl] at h
        injection h with h
        subst h
        rfl
  | some o =>
    cases o with
    | label l => exact hop.elim
    | address a =>
      obtain ⟨v, m⟩ := a
      by_cases hj : op = "JSR"
      · subst hj
        rcases hop rfl with hm | hm | hm <;> subst hm <;>
        · rw [to_bytes_JSR_address] at h
          split at h
          · exact absurd h (by simp)
          · injection h with h; subst h; rfl
      · cases m <;>
        · simp only [Instruction.to_bytes, Instruction.effective_mode, if_neg hj] at h
          split at h
          · exact absurd h (by simp)
          · rename_i b hl
            first
            | (split at h
               · exact absurd h (by simp)
               · injection h with h; subst h; rfl)
            | (injection h with h; subst h; rfl)

/-- C1 witness: the amended theorem applied to `LDA $44` (ZeroPage). -/
theorem C1_size_matches_to_bytes_witness :
    ([0xA5, 0x44] : List Nat).length
      = Instruction.size ⟨"LDA", some (Operand.address ⟨0x44, AddressMode.ZeroPage⟩)⟩ :=
  C1_size_matches_to_bytes ⟨"LDA", some (Operand.address ⟨0x44, AddressMode.ZeroPage⟩)⟩
    [0xA5, 0x44] (by intro hc; exact absurd hc (by decide)) rfl

/-- C4 counterexample: a successfully encoded empty program yields a ROM
image of 4098 bytes (padding to 0xFFC, two vector bytes, four zeros),
not 4096 as claimed. -/
theorem C4_counterexample :
    add_padding [] 0x8000
      = Except.ok ((([] : List Nat) ++ List.replicate 4092 0) ++
          (0x00 :: 0x80 :: List.replicate 4 0))
    ∧ ((([] : List Nat) ++ List.replicate 4092 0) ++
          (0x00 :: 0x80 :: List.replicate 4 0)).length = 4098
    ∧ (4098 : Nat) ≠ 4096 := by
  refine ⟨rfl, ?_, by decide⟩
  simp only [List.length_append, List.length_replicate, List.length_cons, List.length_nil]

/-- C4 (amended): when the program bytes fit in 0xFFC, the ROM image is the
program, zero padding up to offset 0xFFC, the origin low and high bytes at
offsets 0xFFC/0xFFD, then four zero bytes — 0x1002 (4098) bytes in all;
when the program exceeds 0xFFC bytes the build fails with ProgramTooLarge. -/
theorem C4_rom_image (bytes : List Nat) (s : Nat) (hs : s < 65536) :
    (bytes.length ≤ 0xFFC →
      add_padding bytes s
        = Except.ok ((bytes ++ List.replicate (0xFFC - bytes.length) 0) ++
            (s % 256 :: s / 256 :: List.replicate 4 0))
      ∧ ((bytes ++ List.replicate (0xFFC - bytes.length) 0) ++
            (s % 256 :: s / 256 :: List.replicate 4 0)).length = 0x1002)
    ∧ (0xFFC < bytes.length →
      add_padding bytes s = Except.error AssemblerError.ProgramTooLarge) := by
  constructor
  · intro hle
    have hd : s / 256 % 256 = s / 256 :=
      Nat.mod_eq_of_lt (Nat.div_lt_of_lt_mul (by omega))
    constructor
    · unfold add_padding
      rw [if_neg (by omega), hd]
    · simp only [List.length_append, List.length_replicate, List.length_cons]
      omega
  · intro hgt
    unfold add_padding
    rw [if_pos hgt]

/-- C4 witness: the amended theorem applied to the empty program with
origin 0x8000. -/
theorem C4_rom_image_witness :
    add_padding [] 0x8000
      = Except.ok ((([] : List Nat) ++ List.replicate (0xFFC - 0) 0) ++
          (0x8000 % 256 :: 0x8000 / 256 :: List.replicate 4 0)) :=
  ((C4_rom_image [] 0x8000 (by decide)).1 (by decide)).1

/-- C7: for an instruction with an address operand whose opcode lookup
succeeds, `to_bytes` fails with OperandOutOfRange exactly when the value
exceeds the width of the effective mode (16 bits for the absolute modes,
8 bits for the zero-page/indirect/immediate modes); in range, the absolute
modes emit low byte then high byte and the 8-bit modes emit the low byte;
the remaining modes emit no operand bytes. -/
theorem C7_operand_range (i : Instruction) (a : Address) (b : Nat)
    (ha : i.operand = some (Operand.address a))
    (hb : OPCODE_LOOKUP i.opcode i.effective_mode = some b) :
    ((i.effective_mode = AddressMode.Absolute ∨ i.effective_mode = AddressMode.AbsoluteX ∨
        i.effective_mode = AddressMode.AbsoluteY) →
      (0xFFFF < a.address →
        i.to_bytes = Except.error (AssemblerError.OperandOutOfRange a.display))
      ∧ (a.address ≤ 0xFFFF →
        i.to_bytes = Except.ok [b, a.address % 256, a.address / 256 % 256]))
    ∧ ((i.effective_mode = AddressMode.ZeroPage ∨ i.effective_mode = AddressMode.ZeroPageX ∨
        i.effective_mode = AddressMode.ZeroPageY ∨ i.effective_mode = AddressMode.Indirect ∨
        i.effective_mode = AddressMode.IndirectY ∨ i.effective_mode = AddressMode.Immediate) →
      (0xFF < a.address →
        i.to_bytes = Except.error (AssemblerError.OperandOutOfRange a.display))
      ∧ (a.address ≤ 0xFF → i.to_bytes = Except.ok [b, a.address % 256]))
    ∧ ((i.effective_mode = AddressMode.Accumulator ∨ i.effective_mode = AddressMode.Implied ∨
        i.effective_mode = AddressMode.IndirectX ∨ i.effective_mode = AddressMode.Relative) →
      i.to_bytes = Except.ok [b]) := by
  refine ⟨fun hm => ⟨fun hv => ?_, fun hv => ?_⟩, fun hm => ⟨fun hv => ?_, fun hv => ?_⟩,
    fun hm => ?_⟩
  · simp only [Instruction.to_bytes, hb, ha]
    rcases hm with h1 | h1 | h1 <;> simp only [h1] <;> rw [if_pos hv]
  · simp only [Instruction.to_bytes, hb, ha]
    rcases hm with h1 | h1 | h1 <;> simp only [h1] <;> rw [if_neg (by omega)]
  · simp only [Instruction.to_bytes, hb, ha]
    rcases hm with h1 | h1 | h1 | h1 | h1 | h1 <;> simp only [h1] <;> rw [if_pos hv]
  · simp only [Instruction.to_bytes, hb, ha]
    rcases hm with h1 | h1 | h1 | h1 | h1 | h1 <;> simp only [h1] <;> rw [if_neg (by omega)]
  · simp only [Instruction.to_bytes, hb, ha]
    rcases hm with h1 | h1 | h1 | h1 <;> simp only [h1]

/-- C7 witness: `LDA $1234` (Absolute, in range) encodes to
opcode, low byte, high byte. -/
theorem C7_operand_range_witness :
    Instruction.to_bytes ⟨"LDA", some (Operand.address ⟨0x1234, AddressMode.Absolute⟩)⟩
      = Except.ok [0xAD, 0x34, 0x12] :=
  ((C7_operand_range ⟨"LDA", some (Operand.address ⟨0x1234, AddressMode.Absolute⟩)⟩
      ⟨0x1234, AddressMode.Absolute⟩ 0xAD rfl rfl).1 (Or.inl rfl)).2 (by decide)

/-- C10 counterexample: `to_bytes` of a JSR with an unresolved label does
not use Implied mode: the JSR override forces Absolute, the lookup
(JSR, Absolute) succeeds and `to_bytes` returns just the opcode byte,
even though (JSR, Implied) is absent from the table (so the predicted
OpCodeConversionError failure of the claim does not occur). -/
theorem C10_counterexample :
    Instruction.to_bytes ⟨"JSR", some (Operand.label "start")⟩ = Except.ok [0x20]
    ∧ OPCODE_LOOKUP "JSR" AddressMode.Implied = none :=
  ⟨rfl, rfl⟩

/-- C10 (amended): for a non-JSR instruction with a label operand, the
effective mode is Implied: `to_bytes` returns the (mnemonic, Implied)
opcode byte alone when the table has it and fails with
OpCodeConversionError otherwise; a JSR with a label operand is forced to
Absolute mode and returns [0x20]. No address bytes are ever emitted for a
label operand. -/
theorem C10_label_to_bytes (m l : String) :
    Instruction.to_bytes ⟨"JSR", some (Operand.label l)⟩ = Except.ok [0x20]
    ∧ (m ≠ "JSR" →
      Instruction.to_bytes ⟨m, some (Operand.label l)⟩ =
        (match OPCODE_LOOKUP m AddressMode.Implied with
         | some b => Except.ok [b]
         | none => Except.error (AssemblerError.OpCodeConversionError m))) := by
  constructor
  · rfl
  · intro hm
    simp only [Instruction.to_bytes, Instruction.effective_mode, if_neg hm]
    cases hl : OPCODE_LOOKUP m AddressMode.Implied <;> rfl

/-- C10 witness: the amended theorem applied to `NOP` with a label
operand. -/
theorem C10_label_to_bytes_witness :
    ("NOP" : String) ≠ "JSR"
    ∧ Instruction.to_bytes ⟨"NOP", some (Operand.label "start")⟩ = Except.ok [0xEA] :=
  ⟨by decide, (C10_label_to_bytes "NOP" "start").2 (by decide)⟩

/-- Modelled from the spec: `directive.rs` is not under src/ (only its
users are), and §3 of the spec records that `Directive` currently has the
single variant `Org` carrying a 16-bit load-origin value. -/
inductive Directive where
  | Org (address : Nat)
deriving DecidableEq, Repr

/-- Type `parser::Line`: the five kinds of parsed source line. -/
inductive Line where
  | EmptyLine
  | Comment
  | Label (name : String)
  | Instruction (instr : Instruction)
  | Directive (d : Directive)
deriving DecidableEq, Repr

/-- The label table (`HashMap<String, u32>`), modelled as an association
list: `mapInsert` prepends so a later insert shadows an earlier binding
(`HashMap::insert` overwrites), and `mapGet` returns the first match. -/
def mapInsert (m : List (String × Nat)) (k : String) (v : Nat) :
    List (String × Nat) :=
  (k, v) :: m

/-- Lookup in the label table: the value of the most recent insert. -/
def mapGet (m : List (String × Nat)) (k : String) : Option Nat :=
  (m.find? (fun p => p.1 == k)).map (fun p => p.2)

/-- The origin scan of `proccess_instructions`: every Org directive
overwrites `start_pos`, so the last one in file order wins; absent any,
the origin is 0. -/
def scan_org (lines : List (Line × Nat)) : Nat :=
  lines.foldl
    (fun acc q =>
      match q.1 with
      | Line.Directive (Directive.Org a) => a
      | _ => acc)
    0

/-- Pass 1 of `proccess_instructions`: walk the lines in order, recording
each label at the current location counter and advancing the counter by
the size of each instruction; other line kinds leave both unchanged. -/
def pass1 (pointer : Nat) (m : List (String × Nat)) :
    List (Line × Nat) → List (String × Nat)
  | [] => m
  | (l, _) :: rest =>
    match l with
    | Line.Label name => pass1 pointer (mapInsert m name pointer) rest
    | Line.Instruction i => pass1 (pointer + i.size) m rest
    | _ => pass1 pointer m rest

/-- The rewrite pass 2 applies to one instruction: a label operand is
replaced by the looked-up address with mode fixed to Absolute; an absent
label is an InvalidLabel error naming the label and the referencing
line. -/
def resolve_instr (m : List (String × Nat)) (i : Instruction)
    (line_num : Nat) : Except AssemblerError Instruction :=
  match i.operand with
  | some (Operand.label name) =>
    match mapGet m name with
    | some addr =>
      Except.ok ⟨i.opcode, some (Operand.address ⟨addr, AddressMode.Absolute⟩)⟩
    | none =>
      Except.error (AssemblerError.InvalidLabel ("Did not find " ++ name) line_num)
  | _ => Except.ok i

/-- Pass 2 of `proccess_instructions`: rewrite label operands in every
instruction line in order, aborting on the first unresolved label. -/
def pass2 (m : List (String × Nat)) :
    List (Line × Nat) → Except AssemblerError (List Instruction)
  | [] => Except.ok []
  | (l, line_num) :: rest =>
    match l with
    | Line.Instruction i =>
      match resolve_instr m i line_num with
      | Except.error e => Except.error e
      | Except.ok i2 =>
        match pass2 m rest with
        | Except.error e => Except.error e
        | Except.ok is => Except.ok (i2 :: is)
    | _ => pass2 m rest

/-- Function `process::proccess_instructions` (source spelling): origin scan, label
pass, rewrite pass; returns the resolved instructions plus the origin. -/
def proccess_instructions (lines : List (Line × Nat)) :
    Except AssemblerError (List Instruction × Nat) :=
  let start_pos := scan_org lines
  let label_map := pass1 start_pos [] lines
  match pass2 label_map lines with
  | Except.error e => Except.error e
  | Except.ok instrs => Except.ok (instrs, start_pos)

/-- The amount by which pass 1 advances the location counter over a list
of lines: the sum of the sizes of its instruction lines. -/
def code_size : List (Line × Nat) → Nat
  | [] => 0
  | (l, _) :: rest =>
    match l with
    | Line.Instruction i => i.size + code_size rest
    | _ => code_size rest

theorem mapGet_insert_self (m : List (String × Nat)) (k : String) (v : Nat) :
    mapGet (mapInsert m k v) k = some v := by
  simp [mapGet, mapInsert, List.find?]

theorem mapGet_insert_ne (m : List (String × Nat)) (k k' : String) (v : Nat)
    (h : k ≠ k') : mapGet (mapInsert m k v) k' = mapGet m k' := by
  simp only [mapGet, mapInsert, List.find?]
  rw [show ((k, v).1 == k') = false from beq_eq_false_iff_ne.mpr h]

theorem pass1_append (xs ys : List (Line × Nat)) :
    ∀ p m, pass1 p m (xs ++ ys) = pass1 (p + code_size xs) (pass1 p m xs) ys := by
  induction xs with
  | nil => intro p m; simp [pass1, code_size]
  | cons q rest ih =>
    intro p m
    obtain ⟨l, n⟩ := q
    cases l with
    | Label name => simpa [pass1, code_size] using ih p (mapInsert m name p)
    | Instruction i =>
      simpa [pass1, code_size, Nat.add_assoc] using ih (p + i.size) m
    | EmptyLine => simpa [pass1, code_size] using ih p m
    | Comment => simpa [pass1, code_size] using ih p m
    | Directive d => simpa [pass1, code_size] using ih p m

theorem pass1_isSome_mono (L : String) (ls : List (Line × Nat)) :
    ∀ p m, (mapGet m L).isSome = true → (mapGet (pass1 p m ls) L).isSome = true := by
  induction ls with
  | nil => intro p m h; simpa [pass1] using h
  | cons q rest ih =>
    intro p m h
    obtain ⟨l, n⟩ := q
    cases l with
    | Label name =>
      by_cases hn : name = L
      · subst hn
        exact ih p (mapInsert m name p) (by rw [mapGet_insert_self]; rfl)
      · exact ih p (mapInsert m name p) (by rwa [mapGet_insert_ne m name L p hn])
    | Instruction i => exact ih (p + i.size) m h
    | EmptyLine => exact ih p m h
    | Comment => exact ih p m h
    | Directive d => exact ih p m h

theorem pass1_label_isSome (L : String) (n : Nat) (ls : List (Line × Nat))
    (hmem : (Line.Label L, n) ∈ ls) :
    ∀ p m, (mapGet (pass1 p m ls) L).isSome = true := by
  induction ls with
  | nil => cases hmem
  | cons q rest ih =>
    intro p m
    rcases List.mem_cons.mp hmem with hq | hq
    · subst hq
      exact pass1_isSome_mono L rest p (mapInsert m L p)
        (by rw [mapGet_insert_self]; rfl)
    · obtain ⟨l, k⟩ := q
      cases l with
      | Label name => exact ih hq p (mapInsert m name p)
      | Instruction i => exact ih hq (p + i.size) m
      | EmptyLine => exact ih hq p m
      | Comment => exact ih hq p m
      | Directive d => exact ih hq p m

theorem pass1_no_label (L : String) (ls : List (Line × Nat))
    (h : ∀ q ∈ ls, q.1 ≠ Line.Label L) :
    ∀ p m, mapGet (pass1 p m ls) L = mapGet m L := by
  induction ls with
  | nil => intro p m; rfl
  | cons q rest ih =>
    intro p m
    have hrest : ∀ q ∈ rest, q.1 ≠ Line.Label L :=
      fun q hq => h q (List.mem_cons_of_mem _ hq)
    obtain ⟨l, n⟩ := q
    cases l with
    | Label name =>
      have hne : name ≠ L := by
        intro hc
        exact h (Line.Label name, n) (List.mem_cons_self _ _) (by rw [hc])
      rw [show pass1 p m ((Line.Label name, n) :: rest)
            = pass1 p (mapInsert m name p) rest from rfl,
        ih hrest p (mapInsert m name p), mapGet_insert_ne m name L p hne]
    | Instruction i => exact ih hrest (p + i.size) m
    | EmptyLine => exact ih hrest p m
    | Comment => exact ih hrest p m
    | Directive d => exact ih hrest p m

theorem pass2_error_shape (m : List (String × Nat)) (ls : List (Line × Nat))
    (e : AssemblerError) (h : pass2 m ls = Except.error e) :
    ∃ op L n, e = AssemblerError.InvalidLabel ("Did not find " ++ L) n
      ∧ mapGet m L = none
      ∧ (Line.Instruction ⟨op, some (Operand.label L)⟩, n) ∈ ls := by
  induction ls with
  | nil => exact absurd h (by simp [pass2])
  | cons q rest ih =>
    obtain ⟨l, n⟩ := q
    cases l with
    | Instruction i =>
      rw [show pass2 m ((Line.Instruction i, n) :: rest)
            = (match resolve_instr m i n with
               | Except.error e => Except.error e
               | Except.ok i2 =>
                 match pass2 m rest with
                 | Except.error e => Except.error e
                 | Except.ok is => Except.ok (i2 :: is)) from rfl] at h
      cases hr : resolve_instr m i n with
      | error e2 =>
        rw [hr] at h
        injection h with h
        subst h
        obtain ⟨op, operand⟩ := i
        cases operand with
        | none => exact absurd hr (by simp [resolve_instr])
        | some o =>
          cases o with
          | address a => exact absurd hr (by simp [resolve_instr])
          | label name =>
            cases hg : mapGet m name with
            | some v => rw [show resolve_instr m ⟨op, some (Operand.label name)⟩ n
                = (match mapGet m name with
                   | some addr => Except.ok ⟨op, some (Operand.address ⟨addr, AddressMode.Absolute⟩)⟩
                   | none => Except.error (AssemblerError.InvalidLabel ("Did not find " ++ name) n))
                from rfl, hg] at hr; exact absurd hr (by simp)
            | none =>
              rw [show resolve_instr m ⟨op, some (Operand.label name)⟩ n
                = (match mapGet m name with
                   | some addr => Except.ok ⟨op, some (Operand.address ⟨addr, AddressMode.Absolute⟩)⟩
                   | none => Except.error (AssemblerError.InvalidLabel ("Did not find " ++ name) n))
                from rfl, hg] at hr
              injection hr with hr
              exact ⟨op, name, n, hr.symm, hg, List.mem_cons_self _ _⟩
      | ok i2 =>
        rw [hr] at h
        cases hp : pass2 m rest with
        | error e2 =>
          rw [hp] at h
          injection h with h
          subst h
          obtain ⟨op, L, k, he, hg, hmem⟩ := ih hp
          exact ⟨op, L, k, he, hg, List.mem_cons_of_mem _ hmem⟩
        | ok is => rw [hp] at h; exact absurd h (by simp)
    | Label name =>
      obtain ⟨op, L, k, he, hg, hmem⟩ := ih h
      exact ⟨op, L, k, he, hg, List.mem_cons_of_mem _ hmem⟩
    | EmptyLine =>
      obtain ⟨op, L, k, he, hg, hmem⟩ := ih h
      exact ⟨op, L, k, he, hg, List.mem_cons_of_mem _ hmem⟩
    | Comment =>
      obtain ⟨op, L, k, he, hg, hmem⟩ := ih h
      exact ⟨op, L, k, he, hg, List.mem_cons_of_mem _ hmem⟩
    | Directive d =>
      obtain ⟨op, L, k, he, hg, hmem⟩ := ih h
      exact ⟨op, L, k, he, hg, List.mem_cons_of_mem _ hmem⟩

theorem pass2_ok_resolves (m : List (String × Nat)) (ls : List (Line × Nat))
    (is : List Instruction) (h : pass2 m ls = Except.ok is)
    (op L : String) (n : Nat)
    (hmem : (Line.Instruction ⟨op, some (Operand.label L)⟩, n) ∈ ls) :
    ∃ v, mapGet m L = some v ∧
      Instruction.mk op (some (Operand.address ⟨v, AddressMode.Absolute⟩)) ∈ is := by
  induction ls generalizing is with
  | nil => cases hmem
  | cons q rest ih =>
    obtain ⟨l, k⟩ := q
    rcases List.mem_cons.mp hmem with hq | hq
    · simp only [Prod.mk.injEq] at hq
      obtain ⟨hl, hk⟩ := hq
      subst hl
      subst hk
      simp only [pass2] at h
      cases hr : resolve_instr m ⟨op, some (Operand.label L)⟩ n with
      | error e => rw [hr] at h; exact absurd h (by simp)
      | ok i2 =>
        rw [hr] at h
        cases hg : mapGet m L with
        | none =>
          rw [show resolve_instr m ⟨op, some (Operand.label L)⟩ n
              = (match mapGet m L with
                 | some addr => Except.ok
                     ⟨op, some (Operand.address ⟨addr, AddressMode.Absolute⟩)⟩
                 | none => Except.error
                     (AssemblerError.InvalidLabel ("Did not find " ++ L) n))
              from rfl, hg] at hr
          exact absurd hr (by simp)
        | some v =>
          rw [show resolve_instr m ⟨op, some (Operand.label L)⟩ n
              = (match mapGet m L with
                 | some addr => Except.ok
                     ⟨op, some (Operand.address ⟨addr, AddressMode.Absolute⟩)⟩
                 | none => Except.error
                     (AssemblerError.InvalidLabel ("Did not find " ++ L) n))
              from rfl, hg] at hr
          injection hr with hr
          subst hr
          cases hp : pass2 m rest with
          | error e => rw [hp] at h; exact absurd h (by simp)
          | ok is2 =>
            rw [hp] at h
            injection h with h
            subst h
            exact ⟨v, rfl, List.mem_cons_self _ _⟩
    · cases l with
      | Instruction i =>
        simp only [pass2] at h
        cases hr : resolve_instr m i k with
        | error e => rw [hr] at h; exact absurd h (by simp)
        | ok i2 =>
          rw [hr] at h
          cases hp : pass2 m rest with
          | error e => rw [hp] at h; exact absurd h (by simp)
          | ok is2 =>
            rw [hp] at h
            injection h with h
            subst h
            obtain ⟨v, hg, hmem2⟩ := ih is2 hp hq
            exact ⟨v, hg, List.mem_cons_of_mem _ hmem2⟩
      | Label name => exact ih is h hq
      | EmptyLine => exact ih is h hq
      | Comment => exact ih is h hq
      | Directive d => exact ih is h hq

/-- C5: label resolution is order-independent: in a program that references
a label both before its defining line (forward reference) and after it
(backward reference), a successful resolution rewrites both references to
the same address. -/
theorem C5_label_order_independent (A B C D : List (Line × Nat))
    (op1 op2 L : String) (n1 nl n2 : Nat)
    (instrs : List Instruction) (s : Nat)
    (h : proccess_instructions
        (A ++ (Line.Instruction ⟨op1, some (Operand.label L)⟩, n1) ::
          (B ++ (Line.Label L, nl) ::
            (C ++ (Line.Instruction ⟨op2, some (Operand.label L)⟩, n2) :: D)))
      = Except.ok (instrs, s)) :
    ∃ v, Instruction.mk op1 (some (Operand.address ⟨v, AddressMode.Absolute⟩)) ∈ instrs
      ∧ Instruction.mk op2 (some (Operand.address ⟨v, AddressMode.Absolute⟩)) ∈ instrs := by
  simp only [proccess_instructions] at h
  set lines := A ++ (Line.Instruction ⟨op1, some (Operand.label L)⟩, n1) ::
    (B ++ (Line.Label L, nl) ::
      (C ++ (Line.Instruction ⟨op2, some (Operand.label L)⟩, n2) :: D)) with hlines
  cases hp : pass2 (pass1 (scan_org lines) [] lines) lines with
  | error e => rw [hp] at h; exact absurd h (by simp)
  | ok is =>
    rw [hp] at h
    injection h with h
    obtain ⟨h1, h2⟩ := Prod.mk.injEq .. ▸ h
    subst h1
    have hm1 : (Line.Instruction ⟨op1, some (Operand.label L)⟩, n1) ∈ lines := by
      rw [hlines]
      exact List.mem_append_right _ (List.mem_cons_self _ _)
    have hm2 : (Line.Instruction ⟨op2, some (Operand.label L)⟩, n2) ∈ lines := by
      rw [hlines]
      refine List.mem_append_right _ (List.mem_cons_of_mem _ ?_)
      refine List.mem_append_right _ (List.mem_cons_of_mem _ ?_)
      exact List.mem_append_right _ (List.mem_cons_self _ _)
    obtain ⟨v1, hg1, hin1⟩ := pass2_ok_resolves _ _ _ hp op1 L n1 hm1
    obtain ⟨v2, hg2, hin2⟩ := pass2_ok_resolves _ _ _ hp op2 L n2 hm2
    have hv : v1 = v2 := by
      rw [hg1] at hg2
      exact Option.some.inj hg2
    exact ⟨v1, hin1, hv ▸ hin2⟩

/-- C5 witness: `JMP loop` before and after `loop:` both resolve to
address 3 (origin 0; the first JMP occupies 3 bytes). -/
theorem C5_label_order_independent_witness :
    ∃ v,
      Instruction.mk "JMP" (some (Operand.address ⟨v, AddressMode.Absolute⟩))
        ∈ [Instruction.mk "JMP" (some (Operand.address ⟨3, AddressMode.Absolute⟩)),
           Instruction.mk "JMP" (some (Operand.address ⟨3, AddressMode.Absolute⟩))]
      ∧ Instruction.mk "JMP" (some (Operand.address ⟨v, AddressMode.Absolute⟩))
        ∈ [Instruction.mk "JMP" (some (Operand.address ⟨3, AddressMode.Absolute⟩)),
           Instruction.mk "JMP" (some (Operand.address ⟨3, AddressMode.Absolute⟩))] :=
  C5_label_order_independent [] [] [] [] "JMP" "JMP" "loop" 1 2 3 _ 0 rfl

/-- C6: a program with an instruction referencing a label that no Label
line defines fails resolution with an InvalidLabel error whose message
names an undefined label and which carries the referencing line number,
and no instruction sequence is produced. -/
theorem C6_undefined_label (lines : List (Line × Nat)) (op L : String) (n : Nat)
    (href : (Line.Instruction ⟨op, some (Operand.label L)⟩, n) ∈ lines)
    (hundef : ∀ q ∈ lines, q.1 ≠ Line.Label L) :
    ∃ L2 n2 op2,
      proccess_instructions lines
        = Except.error (AssemblerError.InvalidLabel ("Did not find " ++ L2) n2)
      ∧ (∀ q ∈ lines, q.1 ≠ Line.Label L2)
      ∧ (Line.Instruction ⟨op2, some (Operand.label L2)⟩, n2) ∈ lines := by
  have hnone : mapGet (pass1 (scan_org lines) [] lines) L = none := by
    rw [pass1_no_label L lines hundef]
    rfl
  cases hp : pass2 (pass1 (scan_org lines) [] lines) lines with
  | ok is =>
    obtain ⟨v, hg, _⟩ := pass2_ok_resolves _ _ _ hp op L n href
    rw [hnone] at hg
    exact absurd hg (by simp)
  | error e =>
    obtain ⟨op2, L2, n2, he, hg2, hmem2⟩ := pass2_error_shape _ _ _ hp
    refine ⟨L2, n2, op2, ?_, ?_, hmem2⟩
    · simp only [proccess_instructions]
      rw [hp, he]
    · intro q hq hlq
      obtain ⟨l, k⟩ := q
      simp only at hlq
      subst hlq
      have := pass1_label_isSome L2 k lines hq (scan_org lines) []
      rw [hg2] at this
      exact absurd this (by simp)

/-- C6 witness: a single line referencing the undefined label `loop`. -/
theorem C6_undefined_label_witness :
    ∃ L2 n2 op2,
      proccess_instructions [(Line.Instruction ⟨"JMP", some (Operand.label "loop")⟩, 1)]
        = Except.error (AssemblerError.InvalidLabel ("Did not find " ++ L2) n2)
      ∧ (∀ q ∈ [(Line.Instruction ⟨"JMP", some (Operand.label "loop")⟩, 1)],
          q.1 ≠ Line.Label L2)
      ∧ (Line.Instruction ⟨op2, some (Operand.label L2)⟩, n2)
          ∈ [(Line.Instruction ⟨"JMP", some (Operand.label "loop")⟩, 1)] :=
  C6_undefined_label _ "JMP" "loop" 1 (List.mem_cons_self _ _)
    (by intro q hq; simp at hq; subst hq; simp)

/-- C8: duplicate label definitions do not fail; the label table maps the
name to the location counter at the definition occurring last in file
order, and every reference is rewritten to that address. -/
theorem C8_duplicate_labels (pre mid post : List (Line × Nat)) (L : String)
    (n1 n2 : Nat) (lines : List (Line × Nat)) (s : Nat)
    (hlines : lines
      = pre ++ (Line.Label L, n1) :: (mid ++ (Line.Label L, n2) :: post))
    (hs : s = scan_org lines)
    (hpost : ∀ q ∈ post, q.1 ≠ Line.Label L) :
    mapGet (pass1 s [] lines) L = some (s + code_size pre + code_size mid)
    ∧ ∀ op n,
        resolve_instr (pass1 s [] lines) ⟨op, some (Operand.label L)⟩ n
          = Except.ok ⟨op, some (Operand.address
              ⟨s + code_size pre + code_size mid, AddressMode.Absolute⟩)⟩ := by
  have hget : mapGet (pass1 s [] lines) L = some (s + code_size pre + code_size mid) := by
    subst hlines
    rw [pass1_append]
    rw [show ∀ m, pass1 (s + code_size pre) m ((Line.Label L, n1) :: (mid ++ (Line.Label L, n2) :: post))
        = pass1 (s + code_size pre) (mapInsert m L (s + code_size pre)) (mid ++ (Line.Label L, n2) :: post)
        from fun m => rfl]
    rw [pass1_append]
    rw [show ∀ m, pass1 (s + code_size pre + code_size mid) m ((Line.Label L, n2) :: post)
        = pass1 (s + code_size pre + code_size mid)
            (mapInsert m L (s + code_size pre + code_size mid)) post
        from fun m => rfl]
    rw [pass1_no_label L post hpost, mapGet_insert_self]
  refine ⟨hget, fun op n => ?_⟩
  rw [show resolve_instr (pass1 s [] lines) ⟨op, some (Operand.label L)⟩ n
      = (match mapGet (pass1 s [] lines) L with
         | some addr => Except.ok
             ⟨op, some (Operand.address ⟨addr, AddressMode.Absolute⟩)⟩
         | none => Except.error
             (AssemblerError.InvalidLabel ("Did not find " ++ L) n))
      from rfl, hget]

/-- C8 witness: `loop:` defined twice around a NOP; the second definition
(after one 1-byte instruction) wins, so `loop` maps to 1 and a reference
resolves to address 1. -/
theorem C8_duplicate_labels_witness :
    mapGet (pass1 0 []
        [(Line.Label "loop", 1), (Line.Instruction ⟨"NOP", none⟩, 2),
         (Line.Label "loop", 3)]) "loop" = some (0 + 0 + 1)
    ∧ ∀ op n,
        resolve_instr (pass1 0 []
            [(Line.Label "loop", 1), (Line.Instruction ⟨"NOP", none⟩, 2),
             (Line.Label "loop", 3)]) ⟨op, some (Operand.label "loop")⟩ n
          = Except.ok ⟨op, some (Operand.address ⟨0 + 0 + 1, AddressMode.Absolute⟩)⟩ :=
  C8_duplicate_labels [] [(Line.Instruction ⟨"NOP", none⟩, 2)] [] "loop" 1 3
    _ 0 rfl rfl (by simp)

/-- Rust `str::to_ascii_uppercase`, per character. -/
def to_ascii_uppercase (s : String) : String :=
  String.mk (s.data.map Char.toUpper)

/-- Rust `str::to_lowercase` (its arguments here are ASCII). -/
def to_ascii_lowercase (s : String) : String :=
  String.mk (s.data.map Char.toLower)

/-- the nom multispace character class: space, tab, carriage return,
newline. -/
def wsChar (c : Char) : Bool :=
  c = ' ' || c = '\t' || c = '\r' || c = '\n'

/-- Rust `char::is_ascii_hexdigit`. -/
def hexDigitChar (c : Char) : Bool :=
  c.isDigit || ('a' ≤ c && c ≤ 'f') || ('A' ≤ c && c ≤ 'F')

/-- The identifier characters of a label: alphanumeric or underscore. -/
def labelChar (c : Char) : Bool :=
  c.isAlphanum || c = '_'

/-- The character set of nom `is_not(", ;\n")` (immediate and `$hex`
operand payloads stop at these). -/
def sepSet1 (c : Char) : Bool :=
  c = ',' || c = ' ' || c = ';' || c = '\n'

/-- The character set of nom `is_not(" ;\n")` (the index tail of the
`$hex` operand stops at these). -/
def sepSet2 (c : Char) : Bool :=
  c = ' ' || c = ';' || c = '\n'

/-- Numeric value of a hex digit. -/
def hexVal (c : Char) : Nat :=
  if c.isDigit then c.toNat - 48
  else if 'a' ≤ c && c ≤ 'f' then c.toNat - 87
  else c.toNat - 55

/-- The digit loop of `u32::from_str_radix(s, 16)`: an invalid character
is an invalid-digit error, a value outside 32 bits an overflow error. -/
def fromStrRadixLoop (bound : Nat) : List Char → Nat → Except String Nat
  | [], acc => Except.ok acc
  | c :: rest, acc =>
    if hexDigitChar c then
      if acc * 16 + hexVal c < bound then
        fromStrRadixLoop bound rest (acc * 16 + hexVal c)
      else Except.error "number too large to fit in target type"
    else Except.error "invalid digit found in string"

/-- Rust `u32::from_str_radix(s, 16)` (the optional leading sign never occurs
at the call sites, whose tokens contain no `+` or `-`). -/
def parseHexU32 (s : List Char) : Except String Nat :=
  if s = [] then Except.error "cannot parse integer from empty string"
  else fromStrRadixLoop 4294967296 s 0

/-- Rust `u16::from_str_radix(s, 16)`. -/
def parseHexU16 (s : List Char) : Except String Nat :=
  if s = [] then Except.error "cannot parse integer from empty string"
  else fromStrRadixLoop 65536 s 0

/-- The mode chosen by the `$hex[,X|,Y]` branch of `parse_operand`: an
uppercase `X`/`Y` tail selects the indexed family (any other tail falls to
the plain family), and the digit count of the payload — not its numeric
value — selects zero-page (at most 2 digits) versus absolute (more). -/
def dollar_address_mode (len : Nat) (idx : Option (List Char)) : AddressMode :=
  match idx with
  | some t =>
    if t = ['X'] then
      (if 2 < len then AddressMode.AbsoluteX else AddressMode.ZeroPageX)
    else if t = ['Y'] then
      (if 2 < len then AddressMode.AbsoluteY else AddressMode.ZeroPageY)
    else (if 2 < len then AddressMode.Absolute else AddressMode.ZeroPage)
  | none => if 2 < len then AddressMode.Absolute else AddressMode.ZeroPage

/-- The `#$hex` (Immediate) branch of `parse_operand`. -/
def operand_immediate (ln : Nat) (i : List Char) :
    Option (List Char × Except AssemblerError Operand) :=
  match i with
  | '#' :: '$' :: r =>
    let r1 := r.dropWhile wsChar
    let t := r1.takeWhile (fun c => !sepSet1 c)
    if t = [] then none
    else
      some (r1.dropWhile (fun c => !sepSet1 c),
        match parseHexU32 t with
        | Except.ok v => Except.ok (Operand.address ⟨v, AddressMode.Immediate⟩)
        | Except.error e => Except.error (AssemblerError.ParseError e ln))
  | _ => none

/-- The `$hex[,X|,Y]` branch of `parse_operand`. -/
def operand_dollar (ln : Nat) (i : List Char) :
    Option (List Char × Except AssemblerError Operand) :=
  match i with
  | '$' :: r =>
    let r1 := r.dropWhile wsChar
    let t := r1.takeWhile (fun c => !sepSet1 c)
    if t = [] then none
    else
      let r2 := r1.dropWhile (fun c => !sepSet1 c)
      let idxParse : Option (List Char × List Char) :=
        match r2.dropWhile wsChar with
        | ',' :: r3 =>
          let r4 := r3.dropWhile wsChar
          let t2 := r4.takeWhile (fun c => !sepSet2 c)
          if t2 = [] then none
          else some (r4.dropWhile (fun c => !sepSet2 c), t2)
        | _ => none
      let rest := match idxParse with
        | some p => p.1
        | none => r2
      some (rest,
        match parseHexU32 t with
        | Except.ok v =>
          Except.ok (Operand.address
            ⟨v, dollar_address_mode t.length (idxParse.map (fun p => p.2))⟩)
        | Except.error e => Except.error (AssemblerError.ParseError e ln))
  | _ => none

/-- The `($hex,X)` (IndirectX) branch of `parse_operand`. -/
def operand_indirect_x (ln : Nat) (i : List Char) :
    Option (List Char × Except AssemblerError Operand) :=
  match i with
  | '(' :: r =>
    match r.dropWhile wsChar with
    | '$' :: r2 =>
      let r3 := r2.dropWhile wsChar
      let t := r3.takeWhile (fun c => !(c = ',') && !wsChar c)
      if t = [] then none
      else
        match (r3.dropWhile (fun c => !(c = ',') && !wsChar c)).dropWhile wsChar with
        | ',' :: r5 =>
          match r5.dropWhile wsChar with
          | 'X' :: r6 =>
            (match r6.dropWhile wsChar with
             | ')' :: r7 =>
               some (r7,
                 match parseHexU32 t with
                 | Except.ok v =>
                   Except.ok (Operand.address ⟨v, AddressMode.IndirectX⟩)
                 | Except.error e => Except.error (AssemblerError.ParseError e ln))
             | _ => none)
          | 'x' :: r6 =>
            (match r6.dropWhile wsChar with
             | ')' :: r7 =>
               some (r7,
                 match parseHexU32 t with
                 | Except.ok v =>
                   Except.ok (Operand.address ⟨v, AddressMode.IndirectX⟩)
                 | Except.error e => Except.error (AssemblerError.ParseError e ln))
             | _ => none)
          | _ => none
        | _ => none
    | _ => none
  | _ => none

/-- The `($hex),Y` (IndirectY) branch of `parse_operand` (at most two hex
digits are taken). -/
def operand_indirect_y (ln : Nat) (i : List Char) :
    Option (List Char × Except AssemblerError Operand) :=
  match i with
  | '(' :: r =>
    match r.dropWhile wsChar with
    | '$' :: r2 =>
      let r3 := r2.dropWhile wsChar
      let t := (r3.takeWhile hexDigitChar).take 2
      if t = [] then none
      else
        match (r3.drop t.length).dropWhile wsChar with
        | ')' :: r5 =>
          (match r5.dropWhile wsChar with
           | ',' :: r6 =>
             (match r6.dropWhile wsChar with
              | 'Y' :: r7 =>
                some (r7,
                  match parseHexU32 t with
                  | Except.ok v =>
                    Except.ok (Operand.address ⟨v, AddressMode.IndirectY⟩)
                  | Except.error e => Except.error (AssemblerError.ParseError e ln))
              | 'y' :: r7 =>
                some (r7,
                  match parseHexU32 t with
                  | Except.ok v =>
                    Except.ok (Operand.address ⟨v, AddressMode.IndirectY⟩)
                  | Except.error e => Except.error (AssemblerError.ParseError e ln))
              | _ => none)
           | _ => none)
        | _ => none
    | _ => none
  | _ => none

/-- The `($hex)` (Indirect) branch of `parse_operand` (at most four hex
digits are taken). -/
def operand_indirect (ln : Nat) (i : List Char) :
    Option (List Char × Except AssemblerError Operand) :=
  match i with
  | '(' :: r =>
    match r.dropWhile wsChar with
    | '$' :: r2 =>
      let r3 := r2.dropWhile wsChar
      let t := (r3.takeWhile hexDigitChar).take 4
      if t = [] then none
      else
        match (r3.drop t.length).dropWhile wsChar with
        | ')' :: r5 =>
          some (r5,
            match parseHexU32 t with
            | Except.ok v => Except.ok (Operand.address ⟨v, AddressMode.Indirect⟩)
            | Except.error e => Except.error (AssemblerError.ParseError e ln))
        | _ => none
    | _ => none
  | _ => none

/-- The `A`/`a` (Accumulator) branch of `parse_operand`; any remaining
input after optional whitespace is left unconsumed. -/
def operand_accumulator (i : List Char) :
    Option (List Char × Except AssemblerError Operand) :=
  match i with
  | 'A' :: r =>
    some (r.dropWhile wsChar,
      Except.ok (Operand.address ⟨0, AddressMode.Accumulator⟩))
  | 'a' :: r =>
    some (r.dropWhile wsChar,
      Except.ok (Operand.address ⟨0, AddressMode.Accumulator⟩))
  | _ => none

/-- The bare-identifier (Label reference) branch of `parse_operand`: a
letter or underscore start followed by alphanumerics or underscores. -/
def operand_label (i : List Char) :
    Option (List Char × Except AssemblerError Operand) :=
  match i with
  | c :: _ =>
    if c.isAlpha || c = '_' then
      some (i.dropWhile labelChar,
        Except.ok (Operand.label (String.mk (i.takeWhile labelChar))))
    else none
  | [] => none

/-- Function `parser::parse_operand`: the alternatives in source order; `none`
models a nom-level parse failure, an inner `Except.error` a hex
conversion failure surfaced as a value. -/
def parse_operand (i : List Char) (ln : Nat) :
    Option (List Char × Except AssemblerError Operand) :=
  (operand_immediate ln i).orElse fun _ =>
  (operand_dollar ln i).orElse fun _ =>
  (operand_indirect_x ln i).orElse fun _ =>
  (operand_indirect_y ln i).orElse fun _ =>
  (operand_indirect ln i).orElse fun _ =>
  (operand_accumulator i).orElse fun _ =>
  operand_label i

/-- nom `take_while` predicate of `parse_until_comment_or_line_ending`. -/
def untilCommentChar (c : Char) : Bool :=
  !(c = ';') && !(c = '\n') && !(c = '\r')

/-- The `Display` text of the nom error wrapped into `IOError` when
`parse_operand` rejects an operand token; its exact wording is irrelevant
to every claim and abstracted to a constant. -/
def nom_error_string : String := "Parsing Error"

/-- Function `parser::parse_instruction`: mnemonic token, optional operand after
mandatory whitespace, optional trailing `;` comment; the whole line must
be consumed. The source construct `peek(alt((multispace0, line_ending, eof)))`
cannot fail and adds no constraint. `none` is a nom-level failure; an
inner `Except.error` a line that parsed but whose operand was invalid. -/
def parse_instruction (i : List Char) (ln : Nat) :
    Option (Except AssemblerError Instruction) :=
  let r1 := i.dropWhile wsChar
  let opcode := r1.takeWhile (fun c => c.isAlphanum && !(c = ':'))
  if opcode = [] then none
  else
    let r2 := r1.dropWhile (fun c => c.isAlphanum && !(c = ':'))
    let hasWs : Bool :=
      match r2 with
      | c :: _ => wsChar c
      | [] => false
    let afterWs := r2.dropWhile wsChar
    let operandStr : Option (List Char) :=
      if hasWs then some (afterWs.takeWhile untilCommentChar) else none
    let r3 := if hasWs then afterWs.dropWhile untilCommentChar else r2
    let r4 := r3.dropWhile wsChar
    let commentPresent : Bool :=
      match r4 with
      | ';' :: _ => true
      | _ => false
    let r5 := if commentPresent then ([] : List Char) else r4
    if r5 = [] then
      some
        (if commentPresent && operandStr.isNone then
          Except.ok ⟨String.mk opcode, none⟩
        else
          match operandStr with
          | none => Except.ok ⟨String.mk opcode, none⟩
          | some s =>
            if (s.dropWhile wsChar).head? = some ';' || s.all wsChar then
              Except.ok ⟨String.mk opcode, none⟩
            else
              match parse_operand s ln with
              | none => Except.error (AssemblerError.IOError nom_error_string)
              | some (_, Except.error e) => Except.error e
              | some (_, Except.ok op) => Except.ok ⟨String.mk opcode, some op⟩)
    else none

/-- Function `parser::parse_comment_line`: optional whitespace then `;` (the rest of
the line is consumed; `parse_line` discards the remainder). -/
def parse_comment_line (i : List Char) : Option Unit :=
  match i.dropWhile wsChar with
  | ';' :: _ => some ()
  | _ => none

/-- Function `parser::parse_empty_line`: after maximal whitespace (which swallows
any newline) only end of input may remain. -/
def parse_empty_line (i : List Char) : Option Unit :=
  if i.dropWhile wsChar = [] then some () else none

/-- Function `parser::parse_label`: optional whitespace, a nonempty run of
alphanumeric/underscore characters, `:`, trailing whitespace, end of
input. -/
def parse_label (i : List Char) : Option String :=
  let r1 := i.dropWhile wsChar
  let t := r1.takeWhile labelChar
  if t = [] then none
  else
    match r1.dropWhile labelChar with
    | ':' :: r2 => if r2.dropWhile wsChar = [] then some (String.mk t) else none
    | _ => none

/-- Function `parser::parse_directive`: a dot, an alphabetic name, whitespace, `$`,
hex digits, trailing whitespace, end of input; only `org`
(case-insensitively) is recognized and its argument must fit in `u16`. -/
def parse_directive (i : List Char) : Option (Except AssemblerError Directive) :=
  match i.dropWhile wsChar with
  | '.' :: r2 =>
    let name := r2.takeWhile Char.isAlpha
    if name = [] then none
    else
      match r2.dropWhile Char.isAlpha with
      | c :: r3 =>
        if wsChar c then
          match r3.dropWhile wsChar with
          | '$' :: r5 =>
            let arg := r5.takeWhile hexDigitChar
            if arg = [] then none
            else if (r5.dropWhile hexDigitChar).dropWhile wsChar = [] then
              some
                (if to_ascii_lowercase (String.mk name) = "org" then
                  match parseHexU16 arg with
                  | Except.ok v => Except.ok (Directive.Org v)
                  | Except.error _ =>
                    Except.error (AssemblerError.ParseErrorNom "Failed to parse to u16")
                else Except.error (AssemblerError.InvalidDirective (String.mk name)))
            else none
          | _ => none
        else none
      | [] => none
  | _ => none

/-- Shared shape of the per-mnemonic validators (`validate_adc`,
`validate_lda`, ...): an operand is required, an address operand must
carry a whitelisted mode, a label operand is rejected; `noun` is
"address" or "operand", matching the wording of each source function. -/
def validate_with_modes (modes : List AddressMode) (noun : String)
    (instr : Instruction) (line_num : Nat) : Except AssemblerError Unit :=
  match instr.operand with
  | none =>
    Except.error (AssemblerError.InvalidOpCode
      (instr.opcode ++ " requires an " ++ noun ++ ".") line_num)
  | some (Operand.address a) =>
    if a.address_mode ∈ modes then Except.ok ()
    else
      Except.error (AssemblerError.InvalidOpCode
        (instr.opcode ++ " does not support " ++ a.address_mode.display ++ " addressing.")
        line_num)
  | some (Operand.label _) =>
    Except.error (AssemblerError.InvalidOpCode
      (instr.opcode ++ " does not support labels") line_num)

/-- The shape of `validate_jmp`/`validate_jsr`: like `validate_with_modes` but
a label operand is accepted unconditionally. -/
def validate_jump_modes (modes : List AddressMode)
    (instr : Instruction) (line_num : Nat) : Except AssemblerError Unit :=
  match instr.operand with
  | none =>
    Except.error (AssemblerError.InvalidOpCode
      (instr.opcode ++ " requires an address.") line_num)
  | some (Operand.address a) =>
    if a.address_mode ∈ modes then Except.ok ()
    else
      Except.error (AssemblerError.InvalidOpCode
        (instr.opcode ++ " does not support " ++ a.address_mode.display ++ " addressing.")
        line_num)
  | some (Operand.label _) => Except.ok ()

/-- Function `validation::validate_relative_operand` (the branch mnemonics): an
address operand must carry Relative mode, while a label operand is
accepted unconditionally. -/
def validate_relative_operand (instr : Instruction) (line_num : Nat) :
    Except AssemblerError Unit :=
  match instr.operand with
  | none =>
    Except.error (AssemblerError.InvalidOpCode
      (instr.opcode ++ " requires an address.") line_num)
  | some (Operand.address a) =>
    match a.address_mode with
    | AddressMode.Relative => Except.ok ()
    | _ =>
      Except.error (AssemblerError.InvalidOpCode
        (instr.opcode ++ " does not support " ++ a.address_mode.display ++ " addressing.")
        line_num)
  | some (Operand.label _) => Except.ok ()

/-- Function `validation::validate_no_operand` (also the body of `validate_brk`). -/
def validate_no_operand (instr : Instruction) (line_num : Nat) :
    Except AssemblerError Unit :=
  match instr.operand with
  | some _ =>
    Except.error (AssemblerError.InvalidOpCode
      (instr.opcode ++ " does not take an address.") line_num)
  | none => Except.ok ()

/-- Function `validation::validate_instruction`: dispatch on the uppercased
mnemonic to the per-mnemonic whitelist, with unknown mnemonics rejected. -/
def validate_instruction (instr : Instruction) (line_num : Nat) :
    Except AssemblerError Unit :=
  match to_ascii_uppercase instr.opcode with
  | "ADC" => validate_with_modes [AddressMode.Immediate, AddressMode.ZeroPage,
      AddressMode.ZeroPageX, AddressMode.Absolute, AddressMode.AbsoluteX,
      AddressMode.AbsoluteY, AddressMode.IndirectX, AddressMode.IndirectY]
      "address" instr line_num
  | "AND" => validate_with_modes [AddressMode.Immediate, AddressMode.ZeroPage,
      AddressMode.ZeroPageX, AddressMode.Absolute, AddressMode.AbsoluteX,
      AddressMode.AbsoluteY, AddressMode.IndirectX, AddressMode.IndirectY]
      "address" instr line_num
  | "ASL" => validate_with_modes [AddressMode.Accumulator, AddressMode.ZeroPage,
      AddressMode.ZeroPageX, AddressMode.Absolute, AddressMode.AbsoluteX]
      "address" instr line_num
  | "BIT" => validate_with_modes [AddressMode.ZeroPage, AddressMode.Absolute]
      "address" instr line_num
  | "BPL" => validate_relative_operand instr line_num
  | "BMI" => validate_relative_operand instr line_num
  | "BVC" => validate_relative_operand instr line_num
  | "BVS" => validate_relative_operand instr line_num
  | "BCC" => validate_relative_operand instr line_num
  | "BCS" => validate_relative_operand instr line_num
  | "BNE" => validate_relative_operand instr line_num
  | "BEQ" => validate_relative_operand instr line_num
  | "BRK" => validate_no_operand instr line_num
  | "CMP" => validate_with_modes [AddressMode.Immediate, AddressMode.ZeroPage,
      AddressMode.ZeroPageX, AddressMode.Absolute, AddressMode.AbsoluteX,
      AddressMode.AbsoluteY, AddressMode.IndirectX, AddressMode.IndirectY]
      "address" instr line_num
  | "CPX" => validate_with_modes [AddressMode.Immediate, AddressMode.ZeroPage,
      AddressMode.Absolute] "address" instr line_num
  | "CPY" => validate_with_modes [AddressMode.Immediate, AddressMode.ZeroPage,
      AddressMode.Absolute] "address" instr line_num
  | "DEC" => validate_with_modes [AddressMode.ZeroPage, AddressMode.ZeroPageX,
      AddressMode.Absolute, AddressMode.AbsoluteX] "address" instr line_num
  | "EOR" => validate_with_modes [AddressMode.Immediate, AddressMode.ZeroPage,
      AddressMode.ZeroPageX, AddressMode.Absolute, AddressMode.AbsoluteX,
      AddressMode.AbsoluteY, AddressMode.IndirectX, AddressMode.IndirectY]
      "address" instr line_num
  | "CLC" => validate_no_operand instr line_num
  | "SEC" => validate_no_operand instr line_num
  | "CLI" => validate_no_operand instr line_num
  | "SEI" => validate_no_operand instr line_num
  | "CLV" => validate_no_operand instr line_num
  | "CLD" => validate_no_operand instr line_num
  | "SED" => validate_no_operand instr line_num
  | "INC" => validate_with_modes [AddressMode.ZeroPage, AddressMode.ZeroPageX,
      AddressMode.Absolute, AddressMode.AbsoluteX] "address" instr line_num
  | "JMP" => validate_jump_modes [AddressMode.Absolute, AddressMode.Indirect]
      instr line_num
  | "JSR" => validate_jump_modes [AddressMode.Absolute] instr line_num
  | "LDA" => validate_with_modes [AddressMode.Immediate, AddressMode.ZeroPage,
      AddressMode.ZeroPageX, AddressMode.Absolute, AddressMode.AbsoluteX,
      AddressMode.AbsoluteY, AddressMode.IndirectX, AddressMode.IndirectY]
      "address" instr line_num
  | "LDX" => validate_with_modes [AddressMode.Immediate, AddressMode.ZeroPage,
      AddressMode.ZeroPageY, AddressMode.Absolute, AddressMode.AbsoluteY]
      "address" instr line_num
  | "LDY" => validate_with_modes [AddressMode.Immediate, AddressMode.ZeroPage,
      AddressMode.ZeroPageX, AddressMode.Absolute, AddressMode.AbsoluteX]
      "address" instr line_num
  | "LSR" => validate_with_modes [AddressMode.Accumulator, AddressMode.ZeroPage,
      AddressMode.ZeroPageX, AddressMode.Absolute, AddressMode.AbsoluteX]
      "operand" instr line_num
  | "NOP" => validate_no_operand instr line_num
  | "ORA" => validate_with_modes [AddressMode.Immediate, AddressMode.ZeroPage,
      AddressMode.ZeroPageX, AddressMode.Absolute, AddressMode.AbsoluteX,
      AddressMode.AbsoluteY, AddressMode.IndirectX, AddressMode.IndirectY]
      "operand" instr line_num
  | "TAX" => validate_no_operand instr line_num
  | "TXA" => validate_no_operand instr line_num
  | "DEX" => validate_no_operand instr line_num
  | "INX" => validate_no_operand instr line_num
  | "TAY" => validate_no_operand instr line_num
  | "TYA" => validate_no_operand instr line_num
  | "DEY" => validate_no_operand instr line_num
  | "INY" => validate_no_operand instr line_num
  | "ROL" => validate_with_modes [AddressMode.Accumulator, AddressMode.ZeroPage,
      AddressMode.ZeroPageX, AddressMode.Absolute, AddressMode.AbsoluteX]
      "operand" instr line_num
  | "ROR" => validate_with_modes [AddressMode.Accumulator, AddressMode.ZeroPage,
      AddressMode.ZeroPageX, AddressMode.Absolute, AddressMode.AbsoluteX]
      "operand" instr line_num
  | "RTI" => validate_no_operand instr line_num
  | "RTS" => validate_no_operand instr line_num
  | "SBC" => validate_with_modes [AddressMode.Immediate, AddressMode.ZeroPage,
      AddressMode.ZeroPageX, AddressMode.Absolute, AddressMode.AbsoluteX,
      AddressMode.AbsoluteY, AddressMode.IndirectX, AddressMode.IndirectY]
      "operand" instr line_num
  | "STA" => validate_with_modes [AddressMode.ZeroPage, AddressMode.ZeroPageX,
      AddressMode.Absolute, AddressMode.AbsoluteX, AddressMode.AbsoluteY,
      AddressMode.IndirectX, AddressMode.IndirectY] "address" instr line_num
  | "TXS" => validate_no_operand instr line_num
  | "TSX" => validate_no_operand instr line_num
  | "PHA" => validate_no_operand instr line_num
  | "PLA" => validate_no_operand instr line_num
  | "PHP" => validate_no_operand instr line_num
  | "PLP" => validate_no_operand instr line_num
  | "STX" => validate_with_modes [AddressMode.ZeroPage, AddressMode.ZeroPageY,
      AddressMode.Absolute] "address" instr line_num
  | "STY" => validate_with_modes [AddressMode.ZeroPage, AddressMode.ZeroPageX,
      AddressMode.Absolute] "address" instr line_num
  | _ =>
    Except.error (AssemblerError.InvalidOpCode
      (instr.opcode ++ " is invalid.") line_num)

/-- Function `parser::parse_line`: the alternatives in source order (instruction —
with validation — then comment, label, empty line, directive); if no
branch matches at the nom level the line fails with an
"Unexpected token" parse error. The trailing `opt(line_ending)` and any
unconsumed remainder are discarded by the source. -/
def parse_line (i : List Char) (ln : Nat) : Except AssemblerError Line :=
  match parse_instruction i ln with
  | some (Except.ok instr) =>
    match validate_instruction instr ln with
    | Except.ok _ => Except.ok (Line.Instruction instr)
    | Except.error e => Except.error e
  | some (Except.error e) => Except.error e
  | none =>
    match parse_comment_line i with
    | some _ => Except.ok Line.Comment
    | none =>
      match parse_label i with
      | some name => Except.ok (Line.Label name)
      | none =>
        match parse_empty_line i with
        | some _ => Except.ok Line.EmptyLine
        | none =>
          match parse_directive i with
          | some (Except.ok d) => Except.ok (Line.Directive d)
          | some (Except.error e) => Except.error e
          | none => Except.error (AssemblerError.ParseError "Unexpected token" ln)

theorem takeWhile_append_all (p : Char → Bool) (l1 l2 : List Char)
    (h : ∀ c ∈ l1, p c = true) :
    (l1 ++ l2).takeWhile p = l1 ++ l2.takeWhile p := by
  induction l1 with
  | nil => simp
  | cons a t ih =>
    have ha : p a = true := h a (List.mem_cons_self _ _)
    rw [List.cons_append, List.takeWhile_cons, if_pos ha, List.cons_append,
      ih (fun c hc => h c (List.mem_cons_of_mem _ hc))]

theorem dropWhile_append_all (p : Char → Bool) (l1 l2 : List Char)
    (h : ∀ c ∈ l1, p c = true) :
    (l1 ++ l2).dropWhile p = l2.dropWhile p := by
  induction l1 with
  | nil => simp
  | cons a t ih =>
    have ha : p a = true := h a (List.mem_cons_self _ _)
    rw [List.cons_append, List.dropWhile_cons, if_pos ha,
      ih (fun c hc => h c (List.mem_cons_of_mem _ hc))]

theorem ws_not_hex (c : Char) (h : wsChar c = true) : hexDigitChar c = false := by
  simp only [wsChar, Bool.or_eq_true, decide_eq_true_eq] at h
  rcases h with ((h | h) | h) | h <;> subst h <;> decide

theorem hex_not_ws (c : Char) (h : hexDigitChar c = true) : wsChar c = false := by
  cases hw : wsChar c
  · rfl
  · rw [ws_not_hex c hw] at h
    exact absurd h (by simp)

theorem sep1_not_hex (c : Char) (h : sepSet1 c = true) : hexDigitChar c = false := by
  simp only [sepSet1, Bool.or_eq_true, decide_eq_true_eq] at h
  rcases h with ((h | h) | h) | h <;> subst h <;> decide

theorem hex_not_sep1 (c : Char) (h : hexDigitChar c = true) : sepSet1 c = false := by
  cases hs : sepSet1 c
  · rfl
  · rw [sep1_not_hex c hs] at h
    exact absurd h (by simp)

/-- C2: the `$hex` operand branch decides zero-page versus absolute by the
digit count of the hex payload, not by its value: at most 2 digits gives
the ZeroPage family, more gives the Absolute family, with the `,X`/`,Y`
tail selecting the indexed variant. -/
theorem C2_digit_count (payload : List Char) (tl : Option Char) (v ln : Nat)
    (hne : payload ≠ [])
    (hhex : ∀ c ∈ payload, hexDigitChar c = true)
    (hv : parseHexU32 payload = Except.ok v)
    (htl : tl = none ∨ tl = some 'X' ∨ tl = some 'Y') :
    parse_operand
        ('$' :: (payload ++ (match tl with
          | none => []
          | some c => [',', c]))) ln
      = some ([], Except.ok (Operand.address ⟨v,
          match tl with
          | some 'X' =>
            if 2 < payload.length then AddressMode.AbsoluteX else AddressMode.ZeroPageX
          | some 'Y' =>
            if 2 < payload.length then AddressMode.AbsoluteY else AddressMode.ZeroPageY
          | _ =>
            if 2 < payload.length then AddressMode.Absolute else AddressMode.ZeroPage⟩)) := by
  obtain ⟨c0, prest, rfl⟩ : ∃ c0 prest, payload = c0 :: prest := by
    cases payload with
    | nil => exact absurd rfl hne
    | cons a t => exact ⟨a, t, rfl⟩
  have hc0 : hexDigitChar c0 = true := hhex c0 (List.mem_cons_self _ _)
  have hnotsep : ∀ c ∈ c0 :: prest, (!sepSet1 c) = true := by
    intro c hc
    rw [hex_not_sep1 c (hhex c hc)]
    rfl
  have hws0 : ¬ (wsChar c0 = true) := by
    rw [hex_not_ws c0 hc0]
    simp
  rcases htl with rfl | rfl | rfl
  · have e1 : List.dropWhile wsChar ((c0 :: prest) ++ ([] : List Char))
        = (c0 :: prest) ++ ([] : List Char) := by
      rw [List.cons_append, List.dropWhile_cons, if_neg hws0, ← List.cons_append]
    have e2 : List.takeWhile (fun c => !sepSet1 c) ((c0 :: prest) ++ ([] : List Char))
        = c0 :: prest := by
      rw [takeWhile_append_all _ _ _ hnotsep]
      simp [sepSet1]
    have e3 : List.dropWhile (fun c => !sepSet1 c) ((c0 :: prest) ++ ([] : List Char))
        = ([] : List Char) := by
      rw [dropWhile_append_all _ _ _ hnotsep]
      rfl
    rw [show parse_operand ('$' :: ((c0 :: prest) ++ [])) ln
        = ((operand_dollar ln ('$' :: ((c0 :: prest) ++ []))).orElse fun _ => none)
      from rfl]
    simp only [operand_dollar, e1, e2, e3]
    rw [if_neg hne, hv]
    rfl
  · have e1 : List.dropWhile wsChar ((c0 :: prest) ++ [',', 'X'])
        = (c0 :: prest) ++ [',', 'X'] := by
      rw [List.cons_append, List.dropWhile_cons, if_neg hws0, ← List.cons_append]
    have e2 : List.takeWhile (fun c => !sepSet1 c) ((c0 :: prest) ++ [',', 'X'])
        = c0 :: prest := by
      rw [takeWhile_append_all _ _ _ hnotsep]
      simp [sepSet1]
    have e3 : List.dropWhile (fun c => !sepSet1 c) ((c0 :: prest) ++ [',', 'X'])
        = [',', 'X'] := by
      rw [dropWhile_append_all _ _ _ hnotsep]
      rfl
    rw [show parse_operand ('$' :: ((c0 :: prest) ++ [',', 'X'])) ln
        = ((operand_dollar ln ('$' :: ((c0 :: prest) ++ [',', 'X']))).orElse fun _ => none)
      from rfl]
    simp only [operand_dollar, e1, e2, e3]
    rw [if_neg hne, hv]
    rfl
  · have e1 : List.dropWhile wsChar ((c0 :: prest) ++ [',', 'Y'])
        = (c0 :: prest) ++ [',', 'Y'] := by
      rw [List.cons_append, List.dropWhile_cons, if_neg hws0, ← List.cons_append]
    have e2 : List.takeWhile (fun c => !sepSet1 c) ((c0 :: prest) ++ [',', 'Y'])
        = c0 :: prest := by
      rw [takeWhile_append_all _ _ _ hnotsep]
      simp [sepSet1]
    have e3 : List.dropWhile (fun c => !sepSet1 c) ((c0 :: prest) ++ [',', 'Y'])
        = [',', 'Y'] := by
      rw [dropWhile_append_all _ _ _ hnotsep]
      rfl
    rw [show parse_operand ('$' :: ((c0 :: prest) ++ [',', 'Y'])) ln
        = ((operand_dollar ln ('$' :: ((c0 :: prest) ++ [',', 'Y']))).orElse fun _ => none)
      from rfl]
    simp only [operand_dollar, e1, e2, e3]
    rw [if_neg hne, hv]
    rfl

/-- C2 witness: `$044` parses to Absolute with value 0x44, while `$44`
parses to ZeroPage with the same value: digit count, not value, decides. -/
theorem C2_digit_count_witness :
    parse_operand ('$' :: (['0', '4', '4'] ++ [])) 1
      = some ([], Except.ok (Operand.address ⟨0x44, AddressMode.Absolute⟩))
    ∧ parse_operand ('$' :: (['4', '4'] ++ [])) 1
      = some ([], Except.ok (Operand.address ⟨0x44, AddressMode.ZeroPage⟩)) :=
  ⟨C2_digit_count ['0', '4', '4'] none 0x44 1 (by decide) (by decide) rfl (Or.inl rfl),
   C2_digit_count ['4', '4'] none 0x44 1 (by decide) (by decide) rfl (Or.inl rfl)⟩

theorem dollar_address_mode_ne_relative (len : Nat) (idx : Option (List Char)) :
    dollar_address_mode len idx ≠ AddressMode.Relative := by
  rcases idx with _ | t <;> simp only [dollar_address_mode] <;> (repeat' split) <;> simp

theorem operand_dollar_not_relative (ln : Nat) (s rest : List Char) (a : Address)
    (h : operand_dollar ln ('$' :: s) = some (rest, Except.ok (Operand.address a))) :
    a.address_mode ≠ AddressMode.Relative := by
  simp only [operand_dollar] at h
  split at h
  · exact absurd h (by simp)
  · injection h with h
    rw [Prod.ext_iff] at h
    obtain ⟨h1, h2⟩ := h
    simp only at h2
    split at h2
    · injection h2 with h2
      injection h2 with h2
      rw [← h2]
      exact dollar_address_mode_ne_relative _ _
    · exact absurd h2 (by simp)

/-- Applying `validate_relative_operand` to an address operand of any mode other
than Relative is the does-not-support error. -/
theorem validate_relative_address (mn : String) (a : Address) (n : Nat)
    (hmode : a.address_mode ≠ AddressMode.Relative) :
    validate_relative_operand ⟨mn, some (Operand.address a)⟩ n
      = Except.error (AssemblerError.InvalidOpCode
          (mn ++ " does not support " ++ a.address_mode.display ++ " addressing.") n) := by
  obtain ⟨v, m⟩ := a
  cases m <;> first | rfl | exact absurd rfl hmode

/-- C3: for every relative-branch mnemonic, an address operand produced by
the direct `$hex` parser branch fails validation (the parser never emits
Relative mode), a label operand passes validation, and after the resolver
rewrites the label to an Absolute-mode address the encoder fails with
OpCodeConversionError because the opcode table has no
(branch, Absolute) entry. -/
theorem C3_branch_relative (mn : String)
    (hm : mn = "BPL" ∨ mn = "BMI" ∨ mn = "BVC" ∨ mn = "BVS" ∨ mn = "BCC" ∨
          mn = "BCS" ∨ mn = "BNE" ∨ mn = "BEQ")
    (s rest : List Char) (ln n : Nat) (a : Address) (l : String)
    (hp : parse_operand ('$' :: s) ln = some (rest, Except.ok (Operand.address a))) :
    validate_instruction ⟨mn, some (Operand.address a)⟩ n
      = Except.error (AssemblerError.InvalidOpCode
          (mn ++ " does not support " ++ a.address_mode.display ++ " addressing.") n)
    ∧ validate_instruction ⟨mn, some (Operand.label l)⟩ n = Except.ok ()
    ∧ ∀ (mp : List (String × Nat)) (v k : Nat), mapGet mp l = some v →
        resolve_instr mp ⟨mn, some (Operand.label l)⟩ k
            = Except.ok ⟨mn, some (Operand.address ⟨v, AddressMode.Absolute⟩)⟩
          ∧ Instruction.to_bytes ⟨mn, some (Operand.address ⟨v, AddressMode.Absolute⟩)⟩
            = Except.error (AssemblerError.OpCodeConversionError mn) := by
  have hd : operand_dollar ln ('$' :: s) = some (rest, Except.ok (Operand.address a)) := by
    rw [show parse_operand ('$' :: s) ln
        = ((operand_dollar ln ('$' :: s)).orElse fun _ => none) from rfl] at hp
    cases hx : operand_dollar ln ('$' :: s) with
    | none => rw [hx] at hp; exact absurd hp (by simp [Option.orElse])
    | some x => rw [hx] at hp; simpa [Option.orElse] using hp
  have hmode : a.address_mode ≠ AddressMode.Relative :=
    operand_dollar_not_relative ln s rest a hd
  rcases hm with rfl | rfl | rfl | rfl | rfl | rfl | rfl | rfl <;>
    exact ⟨validate_relative_address _ a n hmode, rfl,
      fun mp v k hg => ⟨by simp only [resolve_instr, hg], rfl⟩⟩

/-- C3 witness: `BNE $44` fails validation, `BNE loop` passes and, with
`loop` resolved to 5, fails encoding. -/
theorem C3_branch_relative_witness :
    validate_instruction ⟨"BNE", some (Operand.address ⟨0x44, AddressMode.ZeroPage⟩)⟩ 3
      = Except.error (AssemblerError.InvalidOpCode
          ("BNE" ++ " does not support " ++
            (AddressMode.ZeroPage).display ++ " addressing.") 3)
    ∧ validate_instruction ⟨"BNE", some (Operand.label "loop")⟩ 3 = Except.ok ()
    ∧ (resolve_instr [("loop", 5)] ⟨"BNE", some (Operand.label "loop")⟩ 3
          = Except.ok ⟨"BNE", some (Operand.address ⟨5, AddressMode.Absolute⟩)⟩
        ∧ Instruction.to_bytes ⟨"BNE", some (Operand.address ⟨5, AddressMode.Absolute⟩)⟩
          = Except.error (AssemblerError.OpCodeConversionError "BNE")) := by
  obtain ⟨h1, h2, h3⟩ := C3_branch_relative "BNE"
    (Or.inr (Or.inr (Or.inr (Or.inr (Or.inr (Or.inr (Or.inl rfl)))))))
    ['4', '4'] [] 3 3 ⟨0x44, AddressMode.ZeroPage⟩ "loop" rfl
  exact ⟨h1, h2, h3 [("loop", 5)] 5 3 rfl⟩

theorem digit_hex (c : Char) (h : c.isDigit = true) : hexDigitChar c = true := by
  simp [hexDigitChar, h]

theorem digit_not_ws (c : Char) (h : c.isDigit = true) : wsChar c = false :=
  hex_not_ws c (digit_hex c h)

theorem digit_opChar (c : Char) (h : c.isDigit = true) :
    (c.isAlphanum && !(c = ':')) = true := by
  have h1 : c.isAlphanum = true := by
    simp [Char.isAlphanum, h]
  have h2 : ¬ (c = ':') := by
    intro hc
    subst hc
    exact absurd h (by decide)
  simp [h1, h2]

theorem digit_labelChar (c : Char) (h : c.isDigit = true) : labelChar c = true := by
  simp [labelChar, Char.isAlphanum, h]

theorem digit_ne_semi (c : Char) (h : c.isDigit = true) : ¬ (c = ';') := by
  intro hc
  subst hc
  exact absurd h (by decide)

/-- On a purely numeric label line the instruction branch fails at the nom
level: the digits form a mnemonic token but the trailing `:` is never
consumed, so `all_consuming` rejects the line. -/
theorem parse_instruction_numeric_label (w1 w2 d : List Char) (ln : Nat)
    (hw1 : ∀ c ∈ w1, wsChar c = true) (_hw2 : ∀ c ∈ w2, wsChar c = true)
    (hne : d ≠ []) (hdig : ∀ c ∈ d, c.isDigit = true) :
    parse_instruction (w1 ++ (d ++ ':' :: w2)) ln = none := by
  obtain ⟨c0, d', rfl⟩ : ∃ c0 d', d = c0 :: d' := by
    cases d with
    | nil => exact absurd rfl hne
    | cons a t => exact ⟨a, t, rfl⟩
  have e0 : List.dropWhile wsChar (w1 ++ ((c0 :: d') ++ ':' :: w2))
      = (c0 :: d') ++ ':' :: w2 := by
    rw [dropWhile_append_all wsChar w1 _ hw1, List.cons_append, List.dropWhile_cons,
      if_neg (by rw [digit_not_ws c0 (hdig c0 (List.mem_cons_self _ _))]; simp),
      ← List.cons_append]
  have hall : ∀ c ∈ c0 :: d', (c.isAlphanum && !(c = ':')) = true :=
    fun c hc => digit_opChar c (hdig c hc)
  have e1 : List.takeWhile (fun c => c.isAlphanum && !(c = ':'))
      ((c0 :: d') ++ ':' :: w2) = c0 :: d' := by
    rw [takeWhile_append_all _ _ _ hall]
    simp
  have e2 : List.dropWhile (fun c => c.isAlphanum && !(c = ':'))
      ((c0 :: d') ++ ':' :: w2) = ':' :: w2 := by
    rw [dropWhile_append_all _ _ _ hall]
    rfl
  simp only [parse_instruction, e0, e1, e2]
  rfl

/-- On a purely numeric label line the comment branch fails: the first
character is a digit, not `;`. -/
theorem parse_comment_numeric_label (w1 w2 d : List Char)
    (hw1 : ∀ c ∈ w1, wsChar c = true)
    (hne : d ≠ []) (hdig : ∀ c ∈ d, c.isDigit = true) :
    parse_comment_line (w1 ++ (d ++ ':' :: w2)) = none := by
  obtain ⟨c0, d', rfl⟩ : ∃ c0 d', d = c0 :: d' := by
    cases d with
    | nil => exact absurd rfl hne
    | cons a t => exact ⟨a, t, rfl⟩
  have e0 : List.dropWhile wsChar (w1 ++ ((c0 :: d') ++ ':' :: w2))
      = c0 :: (d' ++ ':' :: w2) := by
    rw [dropWhile_append_all wsChar w1 _ hw1, List.cons_append, List.dropWhile_cons,
      if_neg (by rw [digit_not_ws c0 (hdig c0 (List.mem_cons_self _ _))]; simp)]
  simp only [parse_comment_line, e0]
  split
  · rename_i heq
    injection heq with heq
    exact absurd heq (digit_ne_semi c0 (hdig c0 (List.mem_cons_self _ _)))
  · rfl

/-- On a purely numeric label line `parse_label` succeeds: the identifier
grammar is alphanumeric/underscore with no numeric exclusion. -/
theorem parse_label_numeric_label (w1 w2 d : List Char)
    (hw1 : ∀ c ∈ w1, wsChar c = true) (hw2 : ∀ c ∈ w2, wsChar c = true)
    (hne : d ≠ []) (hdig : ∀ c ∈ d, c.isDigit = true) :
    parse_label (w1 ++ (d ++ ':' :: w2)) = some (String.mk d) := by
  obtain ⟨c0, d', rfl⟩ : ∃ c0 d', d = c0 :: d' := by
    cases d with
    | nil => exact absurd rfl hne
    | cons a t => exact ⟨a, t, rfl⟩
  have e0 : List.dropWhile wsChar (w1 ++ ((c0 :: d') ++ ':' :: w2))
      = (c0 :: d') ++ ':' :: w2 := by
    rw [dropWhile_append_all wsChar w1 _ hw1, List.cons_append, List.dropWhile_cons,
      if_neg (by rw [digit_not_ws c0 (hdig c0 (List.mem_cons_self _ _))]; simp),
      ← List.cons_append]
  have hall : ∀ c ∈ c0 :: d', labelChar c = true :=
    fun c hc => digit_labelChar c (hdig c hc)
  have e1 : List.takeWhile labelChar ((c0 :: d') ++ ':' :: w2) = c0 :: d' := by
    rw [takeWhile_append_all _ _ _ hall]
    simp [labelChar]
  have e2 : List.dropWhile labelChar ((c0 :: d') ++ ':' :: w2) = ':' :: w2 := by
    rw [dropWhile_append_all _ _ _ hall]
    rfl
  have e3 : List.dropWhile wsChar w2 = [] := by
    have := dropWhile_append_all wsChar w2 [] hw2
    simpa using this
  simp only [parse_label, e0, e1, e2, e3]
  rfl

/-- C9 (amended): a line of optional whitespace, one or more decimal
digits, `:` and trailing whitespace parses as a Label line whose name is
the digit string — the grammar does not exclude purely numeric
identifiers. -/
theorem C9_numeric_label (w1 w2 d : List Char) (ln : Nat)
    (hw1 : ∀ c ∈ w1, wsChar c = true) (hw2 : ∀ c ∈ w2, wsChar c = true)
    (hne : d ≠ []) (hdig : ∀ c ∈ d, c.isDigit = true) :
    parse_line (w1 ++ (d ++ ':' :: w2)) ln = Except.ok (Line.Label (String.mk d)) := by
  simp only [parse_line,
    parse_instruction_numeric_label w1 w2 d ln hw1 hw2 hne hdig,
    parse_comment_numeric_label w1 w2 d hw1 hne hdig,
    parse_label_numeric_label w1 w2 d hw1 hw2 hne hdig]

/-- C9 counterexample: the line `123:` — only decimal digits before the
colon — parses as a Label line named `123`, which the claim says cannot
happen. -/
theorem C9_counterexample :
    parse_line ['1', '2', '3', ':'] 1 = Except.ok (Line.Label "123") := rfl

/-- C9 witness: the amended theorem applied to the line `123:`. -/
theorem C9_numeric_label_witness :
    parse_line ([] ++ (['1', '2', '3'] ++ ':' :: [])) 7
      = Except.ok (Line.Label (String.mk ['1', '2', '3'])) :=
  C9_numeric_label [] [] ['1', '2', '3'] 7 (by simp) (by simp)
    (by simp) (by decide)

end NesAsm
